import Mathlib

/-!
Verification development for the `@bringinxyz/lnurl-pay` package (`index.js`).

The library is a wrapper around the standard `lnurl-pay` npm library that adds
a "POS mode" variant of the two-step LNURL-pay protocol.  This file gives a
shallow embedding of the library's data model and operations:

* JavaScript values that can appear in provider JSON and metadata are modelled
  by the inductive type `JSVal`;
* machine arithmetic of the SHA-256 digest is modelled on `Nat` with explicit
  reduction modulo `2 ^ 32`;
* the stateful parts (HTTP calls, the wrapped standard library) are passed in
  explicitly: each embedded operation receives the outcome of the wrapped
  library call and a function from request URL to HTTP outcome, and fallible
  code returns `Except`;
* JavaScript `Error` values thrown and re-thrown by the library are modelled by
  the inductive type `JsError` together with the message rendering
  `JsError.message` on which the library's substring-based error
  classification operates.
-/

namespace BringinLnurlPay

/-! ## JavaScript values

`JSVal` models the fragment of the JavaScript value space that flows through
the library's metadata handling: JSON-like data (null, booleans, integer
numbers, strings, arrays, objects), the `undefined` value, and a cyclic
(non-array) object on which `JSON.stringify` throws.  Fractional numbers do
not occur in the metadata values the library manipulates and are outside the
modelled input space. -/
inductive JSVal where
  | null
  | jsUndefined
  | bool (b : Bool)
  | num (n : Int)
  | str (s : String)
  | arr (elems : List JSVal)
  | obj (fields : List (String × JSVal))
  | cyclicObj
deriving Inhabited

/-- `Array.isArray`. -/
def JSVal.isArr : JSVal → Bool
  | .arr _ => true
  | _ => false

/-- JavaScript truthiness of a value. -/
def JSVal.truthy : JSVal → Bool
  | .null => false
  | .jsUndefined => false
  | .bool b => b
  | .num n => n != 0
  | .str s => !s.isEmpty
  | .arr _ => true
  | .obj _ => true
  | .cyclicObj => true

/-- Indexing `v[i]` on a JavaScript value: element of an array, or
`undefined` when out of range or not an array. -/
def jsIndex (v : JSVal) (i : Nat) : JSVal :=
  match v with
  | .arr l => l.getD i .jsUndefined
  | _ => .jsUndefined

/-- Strict equality `v === "s"` between a JavaScript value and a string
literal. -/
def jsStrictEqStr (v : JSVal) (s : String) : Bool :=
  match v with
  | .str t => t == s
  | _ => false

/-- `x || y` for a possibly-absent value defaulted against `null`, as in
`response.data.successAction || null`. -/
def jsOrNull (v : JSVal) : JSVal :=
  if v.truthy then v else .null

/-! ## String utilities (JavaScript `String.prototype.includes`) -/

/-- `p` is a prefix of `l` (on character lists). -/
def charsStartWith : List Char → List Char → Bool
  | [], _ => true
  | _ :: _, [] => false
  | p :: ps, c :: cs => p == c && charsStartWith ps cs

/-- `pat` occurs as a contiguous substring of `hay`. -/
def charsHaveSub : List Char → List Char → Bool
  | [], pat => pat.isEmpty
  | c :: cs, pat => charsStartWith pat (c :: cs) || charsHaveSub cs pat

/-- JavaScript `s.includes(pat)`. -/
def strIncludes (s pat : String) : Bool :=
  charsHaveSub s.data pat.data

/-- Split a character list at every occurrence of `sep`; the result always
has one more part than there are separators (`[[]]` for the empty list),
matching JavaScript `String.prototype.split` with a one-character
separator. -/
def splitOnCharList (sep : Char) : List Char → List (List Char)
  | [] => [[]]
  | c :: cs =>
    if c == sep then [] :: splitOnCharList sep cs
    else
      match splitOnCharList sep cs with
      | r :: rs => (c :: r) :: rs
      | [] => [[c]]

/-- JavaScript `s.split(sep)` for a one-character separator. -/
def jsSplit (s : String) (sep : Char) : List String :=
  (splitOnCharList sep s.data).map (fun l => String.mk l)

/-! ## UTF-8 and SHA-256

`crypto.createHash("sha256").update(str).digest("hex")` hashes the UTF-8
encoding of the string.  SHA-256 is implemented here from the standard, on
`Nat` with 32-bit words reduced modulo `2 ^ 32`. -/

/-- UTF-8 encoding of one character as a list of byte values. -/
def utf8EncodeCharNat (c : Char) : List Nat :=
  let n := c.toNat
  if n < 128 then [n]
  else if n < 2048 then [192 + n / 64, 128 + n % 64]
  else if n < 65536 then [224 + n / 4096, 128 + (n / 64) % 64, 128 + n % 64]
  else [240 + n / 262144, 128 + (n / 4096) % 64, 128 + (n / 64) % 64, 128 + n % 64]

/-- UTF-8 encoding of a string as a list of byte values. -/
def utf8Bytes (s : String) : List Nat :=
  (s.data.map utf8EncodeCharNat).flatten

/-- Addition of 32-bit words. -/
def add32 (a b : Nat) : Nat := (a + b) % 4294967296

/-- Right rotation of a 32-bit word by `n` places. -/
def rotr32 (n x : Nat) : Nat :=
  ((x >>> n) ||| (x <<< (32 - n))) % 4294967296

def smallSigma0 (x : Nat) : Nat := (rotr32 7 x) ^^^ (rotr32 18 x) ^^^ (x >>> 3)

def smallSigma1 (x : Nat) : Nat := (rotr32 17 x) ^^^ (rotr32 19 x) ^^^ (x >>> 10)

def bigSigma0 (x : Nat) : Nat := (rotr32 2 x) ^^^ (rotr32 13 x) ^^^ (rotr32 22 x)

def bigSigma1 (x : Nat) : Nat := (rotr32 6 x) ^^^ (rotr32 11 x) ^^^ (rotr32 25 x)

def chWord (e f g : Nat) : Nat := (e &&& f) ^^^ ((4294967295 ^^^ e) &&& g)

def majWord (a b c : Nat) : Nat := (a &&& b) ^^^ (a &&& c) ^^^ (b &&& c)

/-- The 64 SHA-256 round constants. -/
def sha256K : List Nat :=
  [1116352408, 1899447441, 3049323471, 3921009573,
   961987163, 1508970993, 2453635748, 2870763221,
   3624381080, 310598401, 607225278, 1426881987,
   1925078388, 2162078206, 2614888103, 3248222580,
   3835390401, 4022224774, 264347078, 604807628,
   770255983, 1249150122, 1555081692, 1996064986,
   2554220882, 2821834349, 2952996808, 3210313671,
   3336571891, 3584528711, 113926993, 338241895,
   666307205, 773529912, 1294757372, 1396182291,
   1695183700, 1986661051, 2177026350, 2456956037,
   2730485921, 2820302411, 3259730800, 3345764771,
   3516065817, 3600352804, 4094571909, 275423344,
   430227734, 506948616, 659060556, 883997877,
   958139571, 1322822218, 1537002063, 1747873779,
   1955562222, 2024104815, 2227730452, 2361852424,
   2428436474, 2756734187, 3204031479, 3329325298]

/-- The SHA-256 initial hash state. -/
def sha256H0 : List Nat :=
  [1779033703, 3144134277, 1013904242, 2773480762,
   1359893119, 2600822924, 528734635, 1541459225]

/-- `count` bytes of `v`, big-endian. -/
def toBytesBE : Nat → Nat → List Nat
  | 0, _ => []
  | k + 1, v => toBytesBE k (v / 256) ++ [v % 256]

/-- SHA-256 padding: append `0x80`, zero bytes, and the 64-bit big-endian
bit length, reaching a multiple of 64 bytes. -/
def sha256Pad (msg : List Nat) : List Nat :=
  let z := (119 - msg.length % 64) % 64
  msg ++ 128 :: List.replicate z 0 ++ toBytesBE 8 (8 * msg.length)

/-- Group bytes into big-endian 32-bit words. -/
def bytesToWords : List Nat → List Nat
  | b0 :: b1 :: b2 :: b3 :: rest =>
      (((b0 * 256 + b1) * 256 + b2) * 256 + b3) :: bytesToWords rest
  | _ => []

/-- Split a word list into blocks of 16 words.  A padded SHA-256 message is
always a whole number of 16-word blocks, so the final catch-all (for inputs
whose length is not a multiple of 16) is never reached from `sha256Bytes`. -/
def chunkWords : List Nat → List (List Nat)
  | [] => []
  | w1 :: w2 :: w3 :: w4 :: w5 :: w6 :: w7 :: w8 ::
    w9 :: w10 :: w11 :: w12 :: w13 :: w14 :: w15 :: w16 :: rest =>
      [w1, w2, w3, w4, w5, w6, w7, w8, w9, w10, w11, w12, w13, w14, w15, w16] ::
        chunkWords rest
  | l => [l]

/-- Append the next word of the SHA-256 message schedule. -/
def scheduleStep (w : List Nat) : List Nat :=
  let i := w.length
  w ++ [add32 (add32 (smallSigma1 (w.getD (i - 2) 0)) (w.getD (i - 7) 0))
             (add32 (smallSigma0 (w.getD (i - 15) 0)) (w.getD (i - 16) 0))]

/-- Iterate a function `n` times. -/
def iterN {α : Type} (f : α → α) : Nat → α → α
  | 0, a => a
  | n + 1, a => iterN f n (f a)

/-- One SHA-256 compression round on the 8-word state. -/
def sha256Round (st : List Nat) (wk : Nat × Nat) : List Nat :=
  match st with
  | [a, b, c, d, e, f, g, h] =>
    let t1 := add32 h (add32 (bigSigma1 e) (add32 (chWord e f g) (add32 wk.1 wk.2)))
    let t2 := add32 (bigSigma0 a) (majWord a b c)
    [add32 t1 t2, a, b, c, add32 d t1, e, f, g]
  | st => st

/-- Process one 16-word block. -/
def sha256Block (h : List Nat) (block : List Nat) : List Nat :=
  let w := iterN scheduleStep 48 block
  let st := (w.zip sha256K).foldl sha256Round h
  (h.zip st).map (fun p => add32 p.1 p.2)

/-- SHA-256 digest of a byte list, as a byte list. -/
def sha256Bytes (msg : List Nat) : List Nat :=
  let blocks := chunkWords (bytesToWords (sha256Pad msg))
  ((blocks.foldl sha256Block sha256H0).map (toBytesBE 4)).flatten

/-- Hexadecimal digit for a value below 16 (lowercase). -/
def hexDigit (n : Nat) : Char :=
  if n < 10 then Char.ofNat (48 + n) else Char.ofNat (87 + n)

/-- Two-digit lowercase hexadecimal rendering of a byte. -/
def byteToHex (b : Nat) : String :=
  String.mk [hexDigit (b / 16), hexDigit (b % 16)]

/-- Lowercase hexadecimal rendering of a byte list. -/
def bytesToHex (bs : List Nat) : String :=
  String.join (bs.map byteToHex)

/-- `crypto.createHash("sha256").update(s).digest("hex")`. -/
def sha256hexOfString (s : String) : String :=
  bytesToHex (sha256Bytes (utf8Bytes s))

/-! ## `JSON.stringify`

`jsonRenderVal` models `JSON.stringify` on `JSVal`; the result is `none` when
stringification throws (a cyclic object anywhere in the value).  Object
members whose value is `undefined` are skipped, and an `undefined` array
element renders as `null`, as in JavaScript.  The top-level `undefined` case
(where `JSON.stringify` returns `undefined` rather than a string) is handled
by the callers. -/

/-- JSON escape of one character inside a string literal. -/
def jsonEscapeChar (c : Char) : String :=
  if c == '"' then "\\\""
  else if c == '\\' then "\\\\"
  else if c == '\n' then "\\n"
  else if c == '\r' then "\\r"
  else if c == '\t' then "\\t"
  else if c == Char.ofNat 8 then "\\b"
  else if c == Char.ofNat 12 then "\\f"
  else if c.toNat < 32 then
    "\\u00" ++ String.mk [hexDigit (c.toNat / 16), hexDigit (c.toNat % 16)]
  else String.mk [c]

/-- JSON string literal for `s`. -/
def jsonQuote (s : String) : String :=
  "\"" ++ String.join (s.data.map jsonEscapeChar) ++ "\""

/-- Comma-join a list of rendered fragments. -/
def commaJoin (parts : List String) : String :=
  String.intercalate "," parts

mutual

/-- `JSON.stringify` of a value in element position (`none` = throws). -/
def jsonRenderVal : JSVal → Option String
  | .null => some "null"
  | .jsUndefined => some "null"
  | .bool b => some (cond b "true" "false")
  | .num n => some (toString n)
  | .str s => some (jsonQuote s)
  | .arr l =>
    match jsonRenderElems l with
    | some parts => some ("[" ++ commaJoin parts ++ "]")
    | none => none
  | .obj fs =>
    match jsonRenderMembers fs with
    | some parts => some ("\x7b" ++ commaJoin parts ++ "\x7d")
    | none => none
  | .cyclicObj => none

/-- Rendered elements of an array. -/
def jsonRenderElems : List JSVal → Option (List String)
  | [] => some []
  | v :: vs =>
    match jsonRenderVal v, jsonRenderElems vs with
    | some s, some ss => some (s :: ss)
    | _, _ => none

/-- Rendered members of an object; members with `undefined` values are
skipped. -/
def jsonRenderMembers : List (String × JSVal) → Option (List String)
  | [] => some []
  | (_, .jsUndefined) :: fs => jsonRenderMembers fs
  | (k, v) :: fs =>
    match jsonRenderVal v, jsonRenderMembers fs with
    | some s, some ss => some ((jsonQuote k ++ ":" ++ s) :: ss)
    | _, _ => none

end

/-- `JSON.stringify` at the top level: `undefined` input yields no string
(JavaScript returns the value `undefined`), a cyclic object throws (`none`
as well — both cases land in the caller's `catch`). -/
def jsonStringifyTop : JSVal → Option String
  | .jsUndefined => none
  | v => jsonRenderVal v

/-! ## `JSON.parse`

A fueled recursive-descent parser for the JSON texts that can arrive in the
`metadata` field.  The number grammar is restricted to (signed) integers:
fractional numbers do not occur in LNURL metadata and are outside the
modelled input space.  Errors are parse failures (`SyntaxError` in
JavaScript). -/

/-- Skip JSON whitespace. -/
def skipWsChars (cs : List Char) : List Char :=
  cs.dropWhile (fun c => c == ' ' || c == '\t' || c == '\n' || c == '\r')

/-- Parse the body of a JSON string literal (after the opening quote). -/
def parseJsonStrBody : Nat → List Char → Except String (String × List Char)
  | 0, _ => .error "Unexpected end of JSON input"
  | _, [] => .error "Unexpected end of JSON input"
  | fuel + 1, c :: rest =>
    if c == '"' then .ok ("", rest)
    else if c == '\\' then
      match rest with
      | [] => .error "Unexpected end of JSON input"
      | e :: rest2 =>
        let dec : Except String (String × List Char) :=
          if e == '"' then .ok ("\"", rest2)
          else if e == '\\' then .ok ("\\", rest2)
          else if e == '/' then .ok ("/", rest2)
          else if e == 'n' then .ok ("\n", rest2)
          else if e == 't' then .ok ("\t", rest2)
          else if e == 'r' then .ok ("\r", rest2)
          else if e == 'b' then .ok (String.mk [Char.ofNat 8], rest2)
          else if e == 'f' then .ok (String.mk [Char.ofNat 12], rest2)
          else if e == 'u' then
            match rest2 with
            | h1 :: h2 :: h3 :: h4 :: rest3 =>
              let hv : Char → Option Nat := fun h =>
                if h.isDigit then some (h.toNat - 48)
                else if 97 ≤ h.toNat && h.toNat ≤ 102 then some (h.toNat - 87)
                else if 65 ≤ h.toNat && h.toNat ≤ 70 then some (h.toNat - 55)
                else none
              match hv h1, hv h2, hv h3, hv h4 with
              | some a, some b, some c2, some d =>
                .ok (String.mk [Char.ofNat (((a * 16 + b) * 16 + c2) * 16 + d)], rest3)
              | _, _, _, _ => .error "Bad Unicode escape in JSON"
            | _ => .error "Unexpected end of JSON input"
          else .error "Bad escaped character in JSON"
        match dec with
        | .ok (piece, rest2) =>
          match parseJsonStrBody fuel rest2 with
          | .ok (tail, rest3) => .ok (piece ++ tail, rest3)
          | .error e2 => .error e2
        | .error e2 => .error e2
    else
      match parseJsonStrBody fuel rest with
      | .ok (tail, rest2) => .ok (String.mk [c] ++ tail, rest2)
      | .error e => .error e

mutual

/-- Parse one JSON value. -/
def parseJsonValue : Nat → List Char → Except String (JSVal × List Char)
  | 0, _ => .error "Unexpected end of JSON input"
  | fuel + 1, cs =>
    match skipWsChars cs with
    | [] => .error "Unexpected end of JSON input"
    | c :: rest =>
      if c == 'n' then
        match rest with
        | 'u' :: 'l' :: 'l' :: rest2 => .ok (.null, rest2)
        | _ => .error "Unexpected token in JSON"
      else if c == 't' then
        match rest with
        | 'r' :: 'u' :: 'e' :: rest2 => .ok (.bool true, rest2)
        | _ => .error "Unexpected token in JSON"
      else if c == 'f' then
        match rest with
        | 'a' :: 'l' :: 's' :: 'e' :: rest2 => .ok (.bool false, rest2)
        | _ => .error "Unexpected token in JSON"
      else if c == '"' then
        match parseJsonStrBody (fuel + 1) rest with
        | .ok (s, rest2) => .ok (.str s, rest2)
        | .error e => .error e
      else if c == '[' then
        match skipWsChars rest with
        | ']' :: rest2 => .ok (.arr [], rest2)
        | rest2 =>
          match parseJsonElems fuel rest2 with
          | .ok (elems, rest3) => .ok (.arr elems, rest3)
          | .error e => .error e
      else if c == Char.ofNat 123 then
        match skipWsChars rest with
        | d :: rest2 =>
          if d == Char.ofNat 125 then .ok (.obj [], rest2)
          else
            match parseJsonMembers fuel (d :: rest2) with
            | .ok (fields, rest3) => .ok (.obj fields, rest3)
            | .error e => .error e
        | [] => .error "Unexpected end of JSON input"
      else if c == '-' || c.isDigit then
        let (sign, ds0) : Int × List Char :=
          if c == '-' then (-1, rest) else (1, c :: rest)
        let ds := ds0.takeWhile Char.isDigit
        let rest2 := ds0.dropWhile Char.isDigit
        if ds.isEmpty then .error "Unexpected token in JSON"
        else
          match rest2 with
          | e :: _ =>
            if e == '.' || e == 'e' || e == 'E' then
              .error "Fractional JSON numbers are outside the modelled input space"
            else
              .ok (.num (sign * (ds.foldl (fun acc d => acc * 10 + (d.toNat - 48)) 0 : Nat)), rest2)
          | [] =>
            .ok (.num (sign * (ds.foldl (fun acc d => acc * 10 + (d.toNat - 48)) 0 : Nat)), rest2)
      else .error "Unexpected token in JSON"

/-- Parse the elements of a JSON array (positioned at the first element). -/
def parseJsonElems : Nat → List Char → Except String (List JSVal × List Char)
  | 0, _ => .error "Unexpected end of JSON input"
  | fuel + 1, cs =>
    match parseJsonValue fuel cs with
    | .error e => .error e
    | .ok (v, rest) =>
      match skipWsChars rest with
      | ',' :: rest2 =>
        match parseJsonElems fuel rest2 with
        | .ok (vs, rest3) => .ok (v :: vs, rest3)
        | .error e => .error e
      | ']' :: rest2 => .ok ([v], rest2)
      | _ => .error "Expected comma or closing bracket in JSON array"

/-- Parse the members of a JSON object (positioned at the first member). -/
def parseJsonMembers : Nat → List Char → Except String (List (String × JSVal) × List Char)
  | 0, _ => .error "Unexpected end of JSON input"
  | fuel + 1, cs =>
    match skipWsChars cs with
    | c :: rest =>
      if c == '"' then
        match parseJsonStrBody (fuel + 1) rest with
        | .error e => .error e
        | .ok (k, rest2) =>
          match skipWsChars rest2 with
          | ':' :: rest3 =>
            match parseJsonValue fuel rest3 with
            | .error e => .error e
            | .ok (v, rest4) =>
              match skipWsChars rest4 with
              | ',' :: rest5 =>
                match parseJsonMembers fuel rest5 with
                | .ok (fs, rest6) => .ok ((k, v) :: fs, rest6)
                | .error e => .error e
              | d :: rest5 =>
                if d == Char.ofNat 125 then .ok ([(k, v)], rest5)
                else .error "Expected comma or closing brace in JSON object"
              | [] => .error "Unexpected end of JSON input"
          | _ => .error "Expected colon in JSON object"
      else .error "Expected string key in JSON object"
    | [] => .error "Unexpected end of JSON input"

end

/-- `JSON.parse`. -/
def jsonParseJs (s : String) : Except String JSVal :=
  match parseJsonValue (2 * s.length + 4) s.data with
  | .error e => .error e
  | .ok (v, rest) =>
    match skipWsChars rest with
    | [] => .ok v
    | _ => .error "Unexpected token after JSON value"

/-! ## Metadata utilities (`index.js` lines 353–414) -/

/-- `parseDescription(metadata)`: the payload of the first array entry of the
metadata list whose content type is strictly equal to `"text/plain"`, else
the fallback `"Payment"`; non-array input yields the fallback.  The
JavaScript `try`/`catch` body is total, so no error case arises. -/
def parseDescription (metadata : JSVal) : JSVal :=
  match metadata with
  | .arr items =>
    match items.find? (fun item => item.isArr && jsStrictEqStr (jsIndex item 0) "text/plain") with
    | some entry => jsIndex entry 1
    | none => .str "Payment"
  | _ => .str "Payment"

/-- `extractImage(metadata)`: the payload of the first array entry of the
metadata list whose content type is strictly equal to `"image/png;base64"`
or `"image/jpeg;base64"`, else the empty string; non-array input yields the
empty string. -/
def extractImage (metadata : JSVal) : JSVal :=
  match metadata with
  | .arr items =>
    match items.find? (fun item => item.isArr &&
        (jsStrictEqStr (jsIndex item 0) "image/png;base64" ||
         jsStrictEqStr (jsIndex item 0) "image/jpeg;base64")) with
    | some entry => jsIndex entry 1
    | none => .str ""
  | _ => .str ""

/-- The serialisation step of `calculateMetadataHash`: a string is used
verbatim, any other value goes through `JSON.stringify`; `none` is the case
in which the `try` body throws (stringification of a cyclic object, or
`hash.update` applied to the non-string `JSON.stringify(undefined)`). -/
def serializeMetadata : JSVal → Option String
  | .str s => some s
  | v => jsonStringifyTop v

/-- `calculateMetadataHash(metadata)` (`index.js`): SHA-256 of the serialised
metadata, rendered as hexadecimal and truncated by `.substring(0, 32)`; on
any failure the digest of the empty string is used instead, equally
truncated. -/
def calculateMetadataHash (metadata : JSVal) : String :=
  match serializeMetadata metadata with
  | some s => (sha256hexOfString s).take 32
  | none => (sha256hexOfString "").take 32

/-! ## Validators (`index.js` lines 74–107) -/

/-- `validators.isValidLightningAddress`: the argument must be a string that
splits on `"@"` into exactly two parts, with non-empty username, non-empty
domain, and a dot inside the domain. -/
def isValidLightningAddress (address : JSVal) : Bool :=
  match address with
  | .str s =>
    match jsSplit s '@' with
    | [username, domain] =>
      !username.isEmpty && !domain.isEmpty && strIncludes domain "."
    | _ => false
  | _ => false

/-- `validators.isValidAmount`: a strictly positive integer.  Amounts are
modelled as rational numbers (the `typeof amount === "number"` test is
carried by the type). -/
def isValidAmount (amount : ℚ) : Bool :=
  decide (0 < amount) && amount.den == 1

/-- `validators.isValidComment`: absent or empty comments are accepted
unconditionally, otherwise the length must not exceed `maxLength`. -/
def isValidComment (comment : Option String) (maxLength : ℚ) : Bool :=
  match comment with
  | none => true
  | some c => c.isEmpty || decide ((c.length : ℚ) ≤ maxLength)

/-! ## `parseInt` and number rendering -/

/-- JavaScript `parseInt` on its decimal input forms: leading whitespace,
optional sign, then leading decimal digits; `none` models `NaN` (no digit
found).  The hexadecimal `0x` form does not occur in millisatoshi bounds and
is outside the modelled input space. -/
def parseIntJS (s : String) : Option Int :=
  let cs := s.data.dropWhile Char.isWhitespace
  let (sign, cs2) : Int × List Char :=
    match cs with
    | '-' :: t => (-1, t)
    | '+' :: t => (1, t)
    | t => (1, t)
  let ds := cs2.takeWhile Char.isDigit
  if ds.isEmpty then none
  else some (sign * (ds.foldl (fun acc d => acc * 10 + (d.toNat - 48)) 0 : Nat))

/-- Rendering of a number into an error message or URL.  Integers render as
in JavaScript; for non-integral rationals this is a placeholder rendering
(numerator/denominator), adequate here because no branch of the library and
no property below inspects the digits of an interpolated number. -/
def ratToJsString (q : ℚ) : String :=
  if q.den = 1 then toString q.num else toString q.num ++ "/" ++ toString q.den

/-- Rendering of a possibly-`NaN` number (`none` models `NaN`). -/
def optNumToJsString : Option ℚ → String
  | none => "NaN"
  | some q => ratToJsString q

/-- `encodeURIComponent`. -/
def encodeURIComponentJs (s : String) : String :=
  let unreserved : Char → Bool := fun c =>
    c.isAlphanum || c == '-' || c == '_' || c == '.' || c == '!' ||
      c == '~' || c == '*' || c == Char.ofNat 39 || c == '(' || c == ')'
  let hexUpper : Nat → Char := fun n =>
    if n < 10 then Char.ofNat (48 + n) else Char.ofNat (55 + n)
  String.join (s.data.map (fun c =>
    if unreserved c then String.mk [c]
    else String.join ((utf8EncodeCharNat c).map
      (fun b => String.mk ['%', hexUpper (b / 16), hexUpper (b % 16)]))))

/-! ## Errors

The library throws JavaScript `Error` values and classifies caught errors by
substring tests on their `message`.  `JsError` keeps the thrown errors
structured (constructor = which `throw` site produced it, payload = the
values interpolated into the message); `JsError.message` renders the exact
message template of the corresponding `throw` in `index.js`, and the
substring classification of the `catch` blocks operates on that rendering.
Numbers are modelled as rationals; `Option ℚ` is a number that may be `NaN`
(`none`), which is how a `parseInt` failure propagates into the bounds. -/
inductive JsError where
  /-- `"<field> is required"`. -/
  | missingField (field : String)
  /-- `"tokens must be a positive integer"`. -/
  | invalidAmount
  /-- `"Amount too small. Minimum: <min> sats"`. -/
  | amountTooSmall (minimum : Option ℚ)
  /-- `"Amount too large. Maximum: <max> sats"`. -/
  | amountTooLarge (maximum : Option ℚ)
  /-- `"Comment too long. Maximum: <limit> characters"`. -/
  | commentTooLong (limit : ℚ)
  /-- `"Invalid Lightning address format"`. -/
  | invalidAddress
  /-- `"Service error: <reason or 'Invalid response'>"`. -/
  | serviceError (reason : Option String)
  /-- `"Invoice request failed: <reason or 'Unknown error'>"`. -/
  | invoiceFailed (reason : Option String)
  /-- A `SyntaxError` escaping `JSON.parse` on the metadata field. -/
  | jsonParseError (msg : String)
  /-- An error thrown by `httpClient.get`: HTTP status errors, timeouts and
  transport failures, with their message. -/
  | httpError (msg : String)
  /-- An error thrown by the wrapped standard `lnurl-pay` library. -/
  | stdLibError (msg : String)
  /-- A re-thrown error `new Error(ctx + ": " + inner.message)`. -/
  | wrapError (ctx : String) (inner : JsError)
deriving DecidableEq

/-- The `message` of the modelled error, as rendered by the corresponding
`throw` statement in `index.js`. -/
def JsError.message : JsError → String
  | .missingField f => f ++ " is required"
  | .invalidAmount => "tokens must be a positive integer"
  | .amountTooSmall m => "Amount too small. Minimum: " ++ optNumToJsString m ++ " sats"
  | .amountTooLarge m => "Amount too large. Maximum: " ++ optNumToJsString m ++ " sats"
  | .commentTooLong l => "Comment too long. Maximum: " ++ ratToJsString l ++ " characters"
  | .invalidAddress => "Invalid Lightning address format"
  | .serviceError r => "Service error: " ++ r.getD "Invalid response"
  | .invoiceFailed r => "Invoice request failed: " ++ r.getD "Unknown error"
  | .jsonParseError m => m
  | .httpError m => m
  | .stdLibError m => m
  | .wrapError c e => c ++ ": " ++ e.message

/-! ## Data model

`ProviderResponse` is the JSON body returned by a provider endpoint,
restricted to the fields `index.js` reads.  The `minSendable`/`maxSendable`
fields are the strings handed to `parseInt` (a numeric JSON field arrives at
`parseInt` through its decimal rendering).  `commentAllowed` is `none` when
the field is absent.  One response type serves both protocol steps;
first-step responses simply carry no `pr`. -/
structure ProviderResponse where
  status : String
  reason : Option String
  callback : String
  minSendable : String
  maxSendable : String
  metadata : JSVal
  commentAllowed : Option ℚ
  pr : Option String
  successAction : JSVal
deriving Inhabited

/-- The service-parameter record built by `requestPayServiceParams`
(`index.js` lines 268–281), also the shape consumed by
`requestInvoiceWithServiceParams`.  `min`/`max` are numbers that may be
`NaN` (`none`). -/
structure ServiceParameters where
  callback : String
  fixed : Bool
  min : Option ℚ
  max : Option ℚ
  domain : String
  metadata : JSVal
  metadataHash : String
  identifier : String
  description : JSVal
  image : JSVal
  commentAllowed : ℚ
  rawData : Option ProviderResponse
deriving Inhabited

/-- The result of `requestInvoice` (`index.js` lines 192–201).
`validatePreimageConst` is the constant value returned by the
`validatePreimage` placeholder `() => true`. -/
structure InvoiceResult where
  invoice : Option String
  params : Option ServiceParameters
  successAction : JSVal
  rawData : Option ProviderResponse
  hasValidAmount : Bool
  hasValidDescriptionHash : Bool
  validatePreimageConst : Bool
deriving Inhabited

/-- The result of `requestInvoiceWithServiceParams` (`index.js`
lines 342–346). -/
structure InvoiceWithParamsResult where
  invoice : Option String
  successAction : JSVal
  rawData : ProviderResponse
deriving Inhabited

/-- `tokens < bound` on a possibly-`NaN` bound: comparison with `NaN` is
false. -/
def jsLtOpt (tokens : ℚ) : Option ℚ → Bool
  | none => false
  | some q => decide (tokens < q)

/-- `tokens > bound` on a possibly-`NaN` bound: comparison with `NaN` is
false. -/
def jsGtOpt (tokens : ℚ) : Option ℚ → Bool
  | none => false
  | some q => decide (q < tokens)

/-! ## Operations

The embedded operations take the outside world as explicit arguments: the
result the wrapped standard `lnurl-pay` call would produce for the same
options (`stdParams`, `stdInvoice`, `stdResult`), and the HTTP layer as a
function `httpGet` from request URL to outcome (`Except String` being a
thrown transport/HTTP error or the parsed JSON body). -/

/-- The POS discovery URL
`https://<domain>/.well-known/lnurlp/<username>?pos=true`. -/
def posDiscoveryUrl (username domain : String) : String :=
  "https://" ++ domain ++ "/.well-known/lnurlp/" ++ username ++ "?pos=true"

/-- The invoice callback URL `<callback>?amount=<millisats>` with an
URL-encoded `&comment=` appended when a (truthy) comment is present. -/
def buildInvoiceUrl (callback : String) (tokens : ℚ) (comment : Option String) : String :=
  let base := callback ++ "?amount=" ++ ratToJsString (tokens * 1000)
  match comment with
  | some c => if !c.isEmpty then base ++ "&comment=" ++ encodeURIComponentJs c else base
  | none => base

/-- Metadata normalisation (`index.js` lines 261–264): a string field goes
through `JSON.parse`, anything else is used as-is. -/
def normalizeMetadata : JSVal → Except String JSVal
  | .str s => jsonParseJs s
  | v => .ok v

/-- `parseInt(bound) / 1000` — the millisatoshi-to-satoshi conversion of
`index.js` lines 271–272, which is exact rational division. -/
def msatToSat (n : Int) : ℚ := (n : ℚ) / 1000

/-- The `try` body of the POS branch of `requestPayServiceParams`
(`index.js` lines 245–281). -/
def posResolveBody (httpGet : String → Except String ProviderResponse)
    (lnUrlOrAddress : String) : Except JsError ServiceParameters :=
  let parts := jsSplit lnUrlOrAddress '@'
  let username := parts.getD 0 ""
  let domain := parts.getD 1 ""
  if username.isEmpty || domain.isEmpty then .error .invalidAddress
  else
    match httpGet (posDiscoveryUrl username domain) with
    | .error msg => .error (.httpError msg)
    | .ok data =>
      if data.status != "OK" then .error (.serviceError data.reason)
      else
        match normalizeMetadata data.metadata with
        | .error e => .error (.jsonParseError e)
        | .ok metadata =>
          .ok { callback := data.callback
                fixed := false
                min := (parseIntJS data.minSendable).map msatToSat
                max := (parseIntJS data.maxSendable).map msatToSat
                domain := domain
                metadata := metadata
                metadataHash := calculateMetadataHash data.metadata
                identifier := lnUrlOrAddress
                description := parseDescription metadata
                image := extractImage metadata
                commentAllowed := data.commentAllowed.getD 0
                rawData := some data }

/-- The `catch` of `requestPayServiceParams` (`index.js` lines 282–287):
errors whose message contains `"Invalid Lightning address"` are re-thrown
as-is, everything else is wrapped with the
`"Failed to get POS service params"` prefix. -/
def wrapParamsErrors : Except JsError ServiceParameters → Except JsError ServiceParameters
  | .ok v => .ok v
  | .error e =>
    if strIncludes e.message "Invalid Lightning address" then .error e
    else .error (.wrapError "Failed to get POS service params" e)

/-- `requestPayServiceParams` (`index.js` lines 225–288). -/
def requestPayServiceParams (stdParams : Except JsError ServiceParameters)
    (httpGet : String → Except String ProviderResponse)
    (lnUrlOrAddress : String) (posMode : Bool) : Except JsError ServiceParameters :=
  if lnUrlOrAddress.isEmpty then .error (.missingField "lnUrlOrAddress")
  else if !posMode || !strIncludes lnUrlOrAddress "@" then stdParams
  else wrapParamsErrors (posResolveBody httpGet lnUrlOrAddress)

/-- The `try` body of the POS branch of `requestInvoice` (`index.js`
lines 153–201): resolve parameters (always with `posMode: true`), validate
amount and comment against them, then issue the invoice request and require
an `"OK"` status. -/
def requestInvoicePosBody (stdParams : Except JsError ServiceParameters)
    (httpGet : String → Except String ProviderResponse)
    (lnUrlOrAddress : String) (tokens : ℚ) (comment : Option String) :
    Except JsError InvoiceResult :=
  match requestPayServiceParams stdParams httpGet lnUrlOrAddress true with
  | .error e => .error e
  | .ok params =>
    if jsLtOpt tokens params.min then .error (.amountTooSmall params.min)
    else if jsGtOpt tokens params.max then .error (.amountTooLarge params.max)
    else if !isValidComment comment params.commentAllowed then
      .error (.commentTooLong params.commentAllowed)
    else
      match httpGet (buildInvoiceUrl params.callback tokens comment) with
      | .error msg => .error (.httpError msg)
      | .ok resp =>
        if resp.status != "OK" then .error (.invoiceFailed resp.reason)
        else
          .ok { invoice := resp.pr
                params := some params
                successAction := jsOrNull resp.successAction
                rawData := some resp
                hasValidAmount := true
                hasValidDescriptionHash := true
                validatePreimageConst := true }

/-- The `catch` of `requestInvoice` (`index.js` lines 202–211): errors whose
message contains `"Amount too small"`, `"Amount too large"` or
`"Comment too long"` are re-thrown as-is, everything else is wrapped with
the `"POS invoice request failed"` prefix. -/
def wrapInvoiceErrors : Except JsError InvoiceResult → Except JsError InvoiceResult
  | .ok v => .ok v
  | .error e =>
    if strIncludes e.message "Amount too small" || strIncludes e.message "Amount too large" ||
        strIncludes e.message "Comment too long" then .error e
    else .error (.wrapError "POS invoice request failed" e)

/-- `requestInvoice` (`index.js` lines 127–212). -/
def requestInvoice (stdInvoice : Except JsError InvoiceResult)
    (stdParams : Except JsError ServiceParameters)
    (httpGet : String → Except String ProviderResponse)
    (lnUrlOrAddress : String) (tokens : ℚ) (comment : Option String) (posMode : Bool) :
    Except JsError InvoiceResult :=
  if lnUrlOrAddress.isEmpty then .error (.missingField "lnUrlOrAddress")
  else if !isValidAmount tokens then .error .invalidAmount
  else if !posMode || !strIncludes lnUrlOrAddress "@" then stdInvoice
  else wrapInvoiceErrors (requestInvoicePosBody stdParams httpGet lnUrlOrAddress tokens comment)

/-- The POS marker of `requestInvoiceWithServiceParams` (`index.js`
lines 313–317): `params.rawData && params.rawData.status === "OK" &&
params.callback.includes("bringin.xyz")`. -/
def isPosParams (p : ServiceParameters) : Bool :=
  match p.rawData with
  | none => false
  | some d => d.status == "OK" && strIncludes p.callback "bringin.xyz"

/-- `requestInvoiceWithServiceParams` (`index.js` lines 300–351).  Note this
function has no `try`/`catch`: its validation errors and any HTTP failure
propagate without a context wrap, and the second-step response status is
never inspected on the POS path. -/
def requestInvoiceWithServiceParams (stdResult : Except JsError InvoiceWithParamsResult)
    (httpGet : String → Except String ProviderResponse)
    (params : Option ServiceParameters) (tokens : ℚ) (comment : Option String) :
    Except JsError InvoiceWithParamsResult :=
  match params with
  | none => .error (.missingField "params")
  | some p =>
    if !isValidAmount tokens then .error .invalidAmount
    else if isPosParams p then
      if jsLtOpt tokens p.min then .error (.amountTooSmall p.min)
      else if jsGtOpt tokens p.max then .error (.amountTooLarge p.max)
      else if !isValidComment comment p.commentAllowed then
        .error (.commentTooLong p.commentAllowed)
      else
        match httpGet (buildInvoiceUrl p.callback tokens comment) with
        | .error msg => .error (.httpError msg)
        | .ok resp =>
          .ok { invoice := resp.pr
                successAction := jsOrNull resp.successAction
                rawData := resp }
    else stdResult

/-! ## Spec-side formulations

Direct-scan formulations of the metadata extractors, worded after the
specification, used to compare the implementation against the spec's
description. -/

/-- The image extractor as the specification words it: the payload of the
first entry whose content type begins with `"image/"`, else the empty
string. -/
def extractImageSpec (metadata : JSVal) : JSVal :=
  match metadata with
  | .arr items =>
    match items.find? (fun item =>
        match jsIndex item 0 with
        | .str t => charsStartWith "image/".data t.data
        | _ => false) with
    | some entry => jsIndex entry 1
    | none => .str ""
  | _ => .str ""

/-- Direct scan for the first `[contentType, payload]` pair whose content
type is `"image/png;base64"` or `"image/jpeg;base64"`; payload of that
entry, else the empty string. -/
def firstPngJpegPayload : List JSVal → JSVal
  | [] => .str ""
  | e :: rest =>
    if e.isArr && (jsStrictEqStr (jsIndex e 0) "image/png;base64" ||
        jsStrictEqStr (jsIndex e 0) "image/jpeg;base64") then jsIndex e 1
    else firstPngJpegPayload rest

/-- Direct scan for the first `[contentType, payload]` pair whose content
type is `"text/plain"`; payload of that entry, else the `"Payment"`
fallback. -/
def firstTextPlainPayload : List JSVal → JSVal
  | [] => .str "Payment"
  | e :: rest =>
    if e.isArr && jsStrictEqStr (jsIndex e 0) "text/plain" then jsIndex e 1
    else firstTextPlainPayload rest

/-! ## Concrete fixtures

Closed inputs used by witnesses and counterexamples, built around the
specification's end-to-end scenario (provider response with
`minSendable: 20000`, `maxSendable: 100000000`,
`metadata: "[[\"text/plain\",\"Coffee\"]]"`, `commentAllowed: 144`). -/

/-- The end-to-end scenario's first-step provider response. -/
def fixResponseOk : ProviderResponse :=
  { status := "OK"
    reason := none
    callback := "https://bringin.xyz/cb"
    minSendable := "20000"
    maxSendable := "100000000"
    metadata := .str "[[\"text/plain\",\"Coffee\"]]"
    commentAllowed := some 144
    pr := none
    successAction := .jsUndefined }

/-- HTTP layer answering every request with `fixResponseOk`. -/
def fixHttpOk : String → Except String ProviderResponse := fun _ => .ok fixResponseOk

/-- A distinguished outcome of the wrapped standard library's
`requestPayServiceParams`. -/
def fixStdParams : Except JsError ServiceParameters :=
  .error (.stdLibError "standard requestPayServiceParams outcome")

/-- A distinguished outcome of the wrapped standard library's
`requestInvoice`. -/
def fixStdInvoice : Except JsError InvoiceResult :=
  .error (.stdLibError "standard requestInvoice outcome")

/-- A distinguished outcome of the wrapped standard library's
`requestInvoiceWithServiceParams`. -/
def fixStdWithParams : Except JsError InvoiceWithParamsResult :=
  .error (.stdLibError "standard requestInvoiceWithServiceParams outcome")

/-- The service parameters resolved for `user@domain.com` from
`fixResponseOk`. -/
def fixResolved : ServiceParameters :=
  match requestPayServiceParams fixStdParams fixHttpOk "user@domain.com" true with
  | .ok p => p
  | .error _ => default

/-- `fixResponseOk` with a millisatoshi minimum that is not a multiple of
1000. -/
def fixResponse20500 : ProviderResponse := { fixResponseOk with minSendable := "20500" }

/-- `fixResponseOk` with inverted bounds (`minSendable` above
`maxSendable`). -/
def fixResponseInverted : ProviderResponse :=
  { fixResponseOk with minSendable := "10000", maxSendable := "5000" }

/-- A failing second-step provider response (non-`"OK"` status, no `pr`). -/
def fixResponseBad : ProviderResponse :=
  { status := "ERROR"
    reason := some "nope"
    callback := ""
    minSendable := ""
    maxSendable := ""
    metadata := .null
    commentAllowed := none
    pr := none
    successAction := .jsUndefined }

/-- HTTP layer answering the discovery request with `fixResponseOk` and the
invoice callback with `fixResponseBad`. -/
def fixHttpBadSecond : String → Except String ProviderResponse := fun u =>
  if strIncludes u "well-known" then .ok fixResponseOk else .ok fixResponseBad

/-- Service parameters with inverted bounds (`min` above `max`) carrying the
POS marker, as `requestPayServiceParams` produces from a provider response
with inverted bounds. -/
def fixInvertedParams : ServiceParameters :=
  match requestPayServiceParams fixStdParams (fun _ => .ok fixResponseInverted)
      "user@domain.com" true with
  | .ok p => p
  | .error _ => default

/-- Metadata whose only entry carries an `image/gif;base64` content type. -/
def fixGifMetadata : JSVal := .arr [.arr [.str "image/gif;base64", .str "abc"]]

/-! # Theorems

Sanity vectors for the SHA-256 embedding, helper lemmas, and one theorem
per claim (with counterexamples and witnesses where required). -/

theorem sha256hexOfString_empty_vector :
    sha256hexOfString "" = "e3b0c44298fc1c149afbf4c8996fb92427ae41e4649b934ca495991b7852b855" := by
  decide

theorem sha256hexOfString_abc_vector :
    sha256hexOfString "abc" = "ba7816bf8f01cfea414140de5dae2223b00361a396177a9cb410ff61f20015ad" := by
  decide

theorem charsHaveSub_singleton (cs : List Char) (c : Char) :
    charsHaveSub cs [c] = true ↔ c ∈ cs := by
  induction cs with
  | nil => simp [charsHaveSub]
  | cons x xs ih =>
    have hpre : charsStartWith [c] (x :: xs) = (c == x) := by
      show (c == x && charsStartWith [] xs) = (c == x)
      simp [charsStartWith]
    show (charsStartWith [c] (x :: xs) || charsHaveSub xs [c]) = true ↔ c ∈ x :: xs
    rw [hpre]
    simp only [Bool.or_eq_true, beq_iff_eq, ih, List.mem_cons]

theorem splitOnCharList_ne_nil (sep : Char) (cs : List Char) :
    splitOnCharList sep cs ≠ [] := by
  induction cs with
  | nil => simp [splitOnCharList]
  | cons c cs ih =>
    unfold splitOnCharList
    by_cases h : (c == sep) = true
    · simp [h]
    · simp only [Bool.not_eq_true] at h
      simp only [h]
      cases hs : splitOnCharList sep cs with
      | nil => exact absurd hs ih
      | cons r rs => simp

theorem splitOnCharList_single_of_not_mem (sep : Char) (cs : List Char) (h : sep ∉ cs) :
    splitOnCharList sep cs = [cs] := by
  induction cs with
  | nil => rfl
  | cons c cs ih =>
    simp only [List.mem_cons] at h
    push_neg at h
    have hne : (c == sep) = false := by
      simp [beq_eq_false_iff_ne, Ne.symm h.1]
    unfold splitOnCharList
    rw [hne]
    simp only [Bool.false_eq_true, if_false]
    rw [ih h.2]

theorem splitOnCharList_of_eq_single (sep : Char) (cs d : List Char)
    (h : splitOnCharList sep cs = [d]) : cs = d ∧ sep ∉ cs := by
  induction cs generalizing d with
  | nil =>
    simp only [splitOnCharList] at h
    injection h with h1 _
    subst h1
    simp
  | cons c cs ih =>
    unfold splitOnCharList at h
    by_cases hc : (c == sep) = true
    · rw [hc] at h
      simp only [if_true] at h
      injection h with h1 h2
      exact absurd h2 (splitOnCharList_ne_nil sep cs)
    · rw [Bool.not_eq_true] at hc
      rw [hc] at h
      simp only [Bool.false_eq_true, if_false] at h
      rcases hs : splitOnCharList sep cs with _ | ⟨r, rs⟩
      · exact absurd hs (splitOnCharList_ne_nil sep cs)
      · rw [hs] at h
        injection h with h1 h2
        subst h2
        obtain ⟨rfl, hnm⟩ := ih r hs
        refine ⟨h1, ?_⟩
        simp only [List.mem_cons]
        push_neg
        exact ⟨fun he => by rw [he] at hc; simp at hc, hnm⟩

theorem splitOnCharList_pair_build (sep : Char) (u d : List Char)
    (hu : sep ∉ u) (hd : sep ∉ d) :
    splitOnCharList sep (u ++ sep :: d) = [u, d] := by
  induction u with
  | nil =>
    show splitOnCharList sep (sep :: d) = [[], d]
    unfold splitOnCharList
    simp [splitOnCharList_single_of_not_mem sep d hd]
  | cons u0 u' ih =>
    simp only [List.mem_cons] at hu
    push_neg at hu
    have hne : (u0 == sep) = false := by
      rw [beq_eq_false_iff_ne]
      exact Ne.symm hu.1
    show splitOnCharList sep (u0 :: (u' ++ sep :: d)) = [u0 :: u', d]
    unfold splitOnCharList
    rw [hne]
    simp only [Bool.false_eq_true, if_false]
    rw [ih hu.2]

theorem splitOnCharList_of_eq_pair (sep : Char) (cs u d : List Char)
    (h : splitOnCharList sep cs = [u, d]) :
    cs = u ++ sep :: d ∧ sep ∉ u ∧ sep ∉ d := by
  induction cs generalizing u with
  | nil =>
    simp only [splitOnCharList] at h
    exact absurd h (by simp)
  | cons c cs ih =>
    unfold splitOnCharList at h
    by_cases hc : (c == sep) = true
    · rw [hc] at h
      simp only [if_true] at h
      injection h with h1 h2
      subst h1
      obtain ⟨rfl, hnm⟩ := splitOnCharList_of_eq_single sep cs d h2
      have hcs : c = sep := by simpa using hc
      subst hcs
      exact ⟨rfl, by simp, hnm⟩
    · rw [Bool.not_eq_true] at hc
      rw [hc] at h
      simp only [Bool.false_eq_true, if_false] at h
      rcases hs : splitOnCharList sep cs with _ | ⟨r, rs⟩
      · exact absurd hs (splitOnCharList_ne_nil sep cs)
      · rw [hs] at h
        injection h with h1 h2
        have hpair : splitOnCharList sep cs = [r, d] := by rw [hs, h2]
        obtain ⟨rfl, hru, hrd⟩ := ih r hpair
        subst h1
        refine ⟨rfl, ?_, hrd⟩
        simp only [List.mem_cons]
        push_neg
        exact ⟨fun he => by rw [he] at hc; simp at hc, hru⟩

set_option maxRecDepth 16384

theorem parseDescription_arr (l : List JSVal) :
    parseDescription (.arr l) = firstTextPlainPayload l := by
  induction l with
  | nil => rfl
  | cons e rest ih =>
    simp only [parseDescription, List.find?]
    cases h : (e.isArr && jsStrictEqStr (jsIndex e 0) "text/plain") with
    | true => simp only [h, firstTextPlainPayload, if_true]
    | false =>
      simp only [h, firstTextPlainPayload, Bool.false_eq_true, if_false]
      exact ih

theorem extractImage_arr (l : List JSVal) :
    extractImage (.arr l) = firstPngJpegPayload l := by
  induction l with
  | nil => rfl
  | cons e rest ih =>
    simp only [extractImage, List.find?]
    cases h : (e.isArr && (jsStrictEqStr (jsIndex e 0) "image/png;base64" ||
        jsStrictEqStr (jsIndex e 0) "image/jpeg;base64")) with
    | true => simp only [h, firstPngJpegPayload, if_true]
    | false =>
      simp only [h, firstPngJpegPayload, Bool.false_eq_true, if_false]
      exact ih

/-- C10: `parseDescription` returns the payload of the first entry whose
content type equals `"text/plain"`, the fallback `"Payment"` when no such
entry exists or the input is not a list, and (being a total function of the
value) never raises. -/
theorem C10_parseDescription_contract :
    (∀ l : List JSVal, parseDescription (.arr l) = firstTextPlainPayload l) ∧
    (∀ v : JSVal, v.isArr = false → parseDescription v = .str "Payment") ∧
    parseDescription (.arr [.arr [.str "text/plain", .str "Coffee"]]) = .str "Coffee" ∧
    parseDescription (.arr []) = .str "Payment" ∧
    parseDescription .null = .str "Payment" := by
  refine ⟨parseDescription_arr, ?_, rfl, rfl, rfl⟩
  intro v hv
  cases v <;> first | rfl | simp [JSVal.isArr] at hv

theorem C10_parseDescription_contract_witness :
    parseDescription (.arr [.arr [.str "image/png;base64", .str "d"],
      .arr [.str "text/plain", .str "Test payment"]]) = .str "Test payment" ∧
    parseDescription (.num 3) = .str "Payment" := by
  have h := C10_parseDescription_contract
  exact ⟨(h.1 _).trans rfl, h.2.1 (.num 3) rfl⟩

/-- C7 counterexample: an `image/gif;base64` entry begins with `"image/"`
but `extractImage` rejects it, returning the empty string where the claim
demands the payload. -/
theorem C7_counterexample :
    extractImage fixGifMetadata = .str "" ∧
    extractImageSpec fixGifMetadata = .str "abc" ∧
    JSVal.str "" ≠ JSVal.str "abc" := by
  refine ⟨rfl, rfl, ?_⟩
  intro h
  injection h with h2
  exact absurd h2 (by decide)

/-- C7 amended: `extractImage` returns the payload of the first entry whose
content type is exactly `"image/png;base64"` or `"image/jpeg;base64"` (not
every `image/` prefix), the empty string when no such entry exists or the
input is not a list, and (being a total function of the value) never
raises. -/
theorem C7_extractImage_contract :
    (∀ l : List JSVal, extractImage (.arr l) = firstPngJpegPayload l) ∧
    (∀ v : JSVal, v.isArr = false → extractImage v = .str "") ∧
    extractImage (.arr [.arr [.str "image/png;base64", .str "abc"]]) = .str "abc" ∧
    extractImage (.arr [.arr [.str "text/plain", .str "x"]]) = .str "" := by
  refine ⟨extractImage_arr, ?_, rfl, rfl⟩
  intro v hv
  cases v <;> first | rfl | simp [JSVal.isArr] at hv

theorem C7_extractImage_contract_witness :
    extractImage (.arr [.arr [.str "text/plain", .str "description"],
      .arr [.str "image/jpeg;base64", .str "jpeg-data"]]) = .str "jpeg-data" ∧
    extractImage .null = .str "" := by
  have h := C7_extractImage_contract
  exact ⟨(h.1 _).trans rfl, h.2.1 .null rfl⟩

/-- C6 counterexample: `calculateMetadataHash` does not return the
hexadecimal SHA-256 digest of the serialised metadata; `.substring(0, 32)`
keeps only the first 32 of its 64 hexadecimal characters. -/
theorem C6_counterexample :
    calculateMetadataHash (.str "hello") ≠ sha256hexOfString "hello" ∧
    (calculateMetadataHash (.str "hello")).length = 32 ∧
    (sha256hexOfString "hello").length = 64 := by
  exact ⟨by decide, by decide, by decide⟩

/-- C6 amended: `calculateMetadataHash` returns the first 32 hexadecimal
characters of the SHA-256 digest of the serialised metadata (string input
verbatim, list input via `JSON.stringify`); on serialisation failure it
falls back to the equally truncated digest of the empty string instead of
raising, and it is a deterministic function of its input. -/
theorem C6_metadataHash_contract :
    (∀ s : String, calculateMetadataHash (.str s) = (sha256hexOfString s).take 32) ∧
    (∀ l : List JSVal, ∀ t : String, jsonRenderVal (.arr l) = some t →
      calculateMetadataHash (.arr l) = (sha256hexOfString t).take 32) ∧
    calculateMetadataHash .cyclicObj = (sha256hexOfString "").take 32 ∧
    calculateMetadataHash .jsUndefined = (sha256hexOfString "").take 32 ∧
    (∀ v w : JSVal, v = w → calculateMetadataHash v = calculateMetadataHash w) := by
  refine ⟨fun s => rfl, ?_, rfl, rfl, fun v w h => by rw [h]⟩
  intro l t h
  simp only [calculateMetadataHash, serializeMetadata, jsonStringifyTop, h]

theorem C6_metadataHash_contract_witness :
    calculateMetadataHash (.arr [.str "a"]) = (sha256hexOfString "[\"a\"]").take 32 :=
  C6_metadataHash_contract.2.1 [.str "a"] "[\"a\"]" rfl

/-- C3: with the POS flag off, or an input that is not a Lightning address
(no `"@"`), both operations return exactly the wrapped standard library's
result for the same options, unchanged (given that the local input
validation preceding the branch passes). -/
theorem C3_non_pos_delegates (stdInvoice : Except JsError InvoiceResult)
    (stdParams : Except JsError ServiceParameters)
    (f : String → Except String ProviderResponse) (addr : String) (tokens : ℚ)
    (comment : Option String) (posMode : Bool)
    (hne : addr.isEmpty = false) (hval : isValidAmount tokens = true)
    (hcond : posMode = false ∨ strIncludes addr "@" = false) :
    requestInvoice stdInvoice stdParams f addr tokens comment posMode = stdInvoice ∧
    requestPayServiceParams stdParams f addr posMode = stdParams := by
  rcases hcond with h | h
  · constructor
    · simp [requestInvoice, hne, hval, h]
    · simp [requestPayServiceParams, hne, h]
  · constructor
    · simp [requestInvoice, hne, hval, h]
    · simp [requestPayServiceParams, hne, h]

theorem C3_non_pos_delegates_witness :
    requestInvoice fixStdInvoice fixStdParams fixHttpOk "lnurl1abc" 5 none true = fixStdInvoice ∧
    requestPayServiceParams fixStdParams fixHttpOk "lnurl1abc" true = fixStdParams := by
  exact C3_non_pos_delegates fixStdInvoice fixStdParams fixHttpOk "lnurl1abc" 5 none true
    rfl (by decide) (Or.inr (by decide))

theorem requestPayServiceParams_pos (std : Except JsError ServiceParameters)
    (f : String → Except String ProviderResponse) (addr : String)
    (hne : addr.isEmpty = false) (hat : strIncludes addr "@" = true) :
    requestPayServiceParams std f addr true = wrapParamsErrors (posResolveBody f addr) := by
  simp [requestPayServiceParams, hne, hat]

theorem wrapParamsErrors_eq_ok_iff (r : Except JsError ServiceParameters)
    (p : ServiceParameters) : wrapParamsErrors r = .ok p ↔ r = .ok p := by
  cases r with
  | ok q => simp [wrapParamsErrors]
  | error e =>
    simp only [wrapParamsErrors]
    constructor
    · intro h
      by_cases hb : strIncludes e.message "Invalid Lightning address" = true
      · rw [if_pos hb] at h; exact Except.noConfusion h
      · rw [if_neg hb] at h; exact Except.noConfusion h
    · intro h; exact Except.noConfusion h

theorem posResolveBody_ok_shape (f : String → Except String ProviderResponse)
    (addr : String) (p : ServiceParameters) (hok : posResolveBody f addr = .ok p) :
    ∃ d : ProviderResponse, p.rawData = some d ∧
      p.min = (parseIntJS d.minSendable).map msatToSat ∧
      p.max = (parseIntJS d.maxSendable).map msatToSat ∧
      d.status = "OK" := by
  simp only [posResolveBody] at hok
  split at hok
  · exact Except.noConfusion hok
  · split at hok
    · exact Except.noConfusion hok
    · rename_i data heq
      split at hok
      · exact Except.noConfusion hok
      · rename_i hst
        split at hok
        · exact Except.noConfusion hok
        · rename_i md hmd
          injection hok with hrec
          subst hrec
          refine ⟨data, rfl, rfl, rfl, ?_⟩
          simpa using hst

theorem requestPayServiceParams_pos_ok_shape (std : Except JsError ServiceParameters)
    (f : String → Except String ProviderResponse) (addr : String) (p : ServiceParameters)
    (hne : addr.isEmpty = false) (hat : strIncludes addr "@" = true)
    (hok : requestPayServiceParams std f addr true = .ok p) :
    ∃ d : ProviderResponse, p.rawData = some d ∧
      p.min = (parseIntJS d.minSendable).map msatToSat ∧
      p.max = (parseIntJS d.maxSendable).map msatToSat ∧
      d.status = "OK" := by
  rw [requestPayServiceParams_pos std f addr hne hat] at hok
  exact posResolveBody_ok_shape f addr p ((wrapParamsErrors_eq_ok_iff _ _).mp hok)

/-- C1 counterexample: a provider bound that is not a multiple of 1000 is
divided exactly, not integer-divided: `minSendable: "20500"` resolves to
`min = 20.5 = 41/2` satoshis, a fraction, whereas integer division by 1000
gives the whole number 20. -/
theorem C1_counterexample :
    (requestPayServiceParams fixStdParams (fun _ => .ok fixResponse20500)
        "user@domain.com" true).map ServiceParameters.min = .ok (some (41 / 2 : ℚ)) ∧
    ((20500 : Int) / 1000) = 20 ∧
    (41 / 2 : ℚ) ≠ ((20 : Int) : ℚ) := by
  refine ⟨by with_unfolding_all rfl, by decide, by norm_num⟩

/-- C1 amended: a POS-mode resolution converts the provider millisatoshi
bounds to satoshis by exact rational division by 1000 (`parseInt` of the
field, then `/ 1000`): a bound that is a multiple of 1000 yields the whole
number of satoshis (20000 yields 20), but a bound that is not a multiple of
1000 yields a fractional value, not the integer quotient. -/
theorem C1_bounds_are_exact_division (std : Except JsError ServiceParameters)
    (f : String → Except String ProviderResponse) (addr : String)
    (p : ServiceParameters) (d : ProviderResponse)
    (hne : addr.isEmpty = false) (hat : strIncludes addr "@" = true)
    (hok : requestPayServiceParams std f addr true = .ok p)
    (hraw : p.rawData = some d) :
    p.min = (parseIntJS d.minSendable).map msatToSat ∧
    p.max = (parseIntJS d.maxSendable).map msatToSat ∧
    (∀ n : Int, msatToSat n = (n : ℚ) / 1000) ∧
    (∀ n : Int, 1000 ∣ n → msatToSat n = ((n / 1000 : Int) : ℚ)) ∧
    msatToSat 20000 = 20 := by
  obtain ⟨d2, hraw2, hmin, hmax, -⟩ :=
    requestPayServiceParams_pos_ok_shape std f addr p hne hat hok
  rw [hraw2] at hraw
  injection hraw with hdd
  subst hdd
  refine ⟨hmin, hmax, fun n => rfl, ?_, by norm_num [msatToSat]⟩
  intro n hdvd
  obtain ⟨k, rfl⟩ := hdvd
  rw [msatToSat, Int.mul_ediv_cancel_left _ (by norm_num)]
  push_cast
  ring

theorem C1_bounds_are_exact_division_witness :
    fixResolved.min = some 20 ∧ fixResolved.max = some 100000 := by
  have h := C1_bounds_are_exact_division fixStdParams fixHttpOk "user@domain.com"
    fixResolved fixResponseOk (by with_unfolding_all rfl) (by decide)
    (by with_unfolding_all rfl) (by with_unfolding_all rfl)
  refine ⟨?_, ?_⟩
  · rw [h.1]
    with_unfolding_all rfl
  · rw [h.2.1]
    with_unfolding_all rfl

/-- C8 counterexample: the resolver performs no ordering check on the
provider bounds; a response with `minSendable: "10000"`,
`maxSendable: "5000"` is accepted and yields `min = 10 > 5 = max`,
violating the claimed invariant. -/
theorem C8_counterexample :
    (requestPayServiceParams fixStdParams (fun _ => .ok fixResponseInverted)
        "user@domain.com" true).map (fun p => (p.min, p.max)) = .ok (some 10, some 5) ∧
    ¬ ((10 : ℚ) ≤ 5) := by
  exact ⟨by with_unfolding_all rfl, by norm_num⟩

/-- C8 amended: `min ≤ max` holds in a resolved `ServiceParameters` record
exactly as ordered provider bounds dictate: whenever
`parseInt(minSendable) ≤ parseInt(maxSendable)`, the converted satoshi
bounds satisfy `min ≤ max`; the resolver itself never checks the ordering,
so the invariant is inherited from the provider, not enforced. -/
theorem C8_min_le_max_of_ordered_bounds (std : Except JsError ServiceParameters)
    (f : String → Except String ProviderResponse) (addr : String)
    (p : ServiceParameters) (d : ProviderResponse) (a b : Int)
    (hne : addr.isEmpty = false) (hat : strIncludes addr "@" = true)
    (hok : requestPayServiceParams std f addr true = .ok p)
    (hraw : p.rawData = some d)
    (hmin : parseIntJS d.minSendable = some a)
    (hmax : parseIntJS d.maxSendable = some b)
    (hab : a ≤ b) :
    p.min = some (msatToSat a) ∧ p.max = some (msatToSat b) ∧
    msatToSat a ≤ msatToSat b := by
  obtain ⟨d2, hraw2, hm, hM, -⟩ :=
    requestPayServiceParams_pos_ok_shape std f addr p hne hat hok
  rw [hraw2] at hraw
  injection hraw with hdd
  subst hdd
  refine ⟨by rw [hm, hmin, Option.map_some'], by rw [hM, hmax, Option.map_some'], ?_⟩
  have hc : (a : ℚ) ≤ (b : ℚ) := by exact_mod_cast hab
  rw [msatToSat, msatToSat]
  gcongr

theorem C8_min_le_max_of_ordered_bounds_witness :
    msatToSat 20000 ≤ msatToSat 100000000 := by
  have h := C8_min_le_max_of_ordered_bounds fixStdParams fixHttpOk "user@domain.com"
    fixResolved fixResponseOk 20000 100000000 (by with_unfolding_all rfl) (by decide)
    (by with_unfolding_all rfl) (by with_unfolding_all rfl)
    (by with_unfolding_all rfl) (by with_unfolding_all rfl) (by norm_num)
  exact h.2.2

theorem posResolveBody_invalidAddress_iff (f : String → Except String ProviderResponse)
    (addr : String) :
    posResolveBody f addr = .error .invalidAddress ↔
      (((jsSplit addr '@').getD 0 "").isEmpty ||
       ((jsSplit addr '@').getD 1 "").isEmpty) = true := by
  simp only [posResolveBody]
  split
  · rename_i hcond
    simp only [hcond]
  · rename_i hcond
    constructor
    · intro h
      exfalso
      split at h
      · rename_i msg heq
        injection h with h2
        exact JsError.noConfusion h2
      · rename_i data heq
        split at h
        · injection h with h2
          exact JsError.noConfusion h2
        · split at h
          · rename_i e hmd
            injection h with h2
            exact JsError.noConfusion h2
          · exact Except.noConfusion h
    · intro h
      exact absurd h hcond

theorem wrapParamsErrors_error_invalidAddress_iff (r : Except JsError ServiceParameters) :
    wrapParamsErrors r = .error .invalidAddress ↔ r = .error .invalidAddress := by
  cases r with
  | ok q => simp only [wrapParamsErrors]
  | error e =>
    simp only [wrapParamsErrors]
    by_cases hb : strIncludes e.message "Invalid Lightning address" = true
    · rw [if_pos hb]
    · rw [if_neg hb]
      constructor
      · intro h
        injection h with h2
        exact JsError.noConfusion h2
      · intro h
        injection h with h2
        subst h2
        exact absurd (by decide : strIncludes (JsError.invalidAddress).message
          "Invalid Lightning address" = true) hb

/-- C4 amended: the helper `isValidLightningAddress` accepts a string
exactly when it contains exactly one `"@"` splitting it into a non-empty
local part and a non-empty domain part containing at least one dot, and it
rejects all the listed bad inputs; but POS-mode resolution does not use this
helper: it rejects with the address-format validation error exactly when one
of the first two `"@"`-split parts is empty, so dot-free domains and inputs
with several `"@"` are accepted there. -/
theorem C4_address_validation :
    (isValidLightningAddress (.str "user@sub.domain.com") = true ∧
     isValidLightningAddress (.str "user@") = false ∧
     isValidLightningAddress (.str "@domain.com") = false ∧
     isValidLightningAddress (.str "nodomain") = false ∧
     isValidLightningAddress (.str "") = false ∧
     isValidLightningAddress .null = false ∧
     isValidLightningAddress (.str "a@b@c.com") = false ∧
     isValidLightningAddress (.str "user@localhost") = false) ∧
    (∀ s : String, isValidLightningAddress (.str s) = true ↔
      ∃ u d : List Char, s.data = u ++ '@' :: d ∧ '@' ∉ u ∧ '@' ∉ d ∧
        u ≠ [] ∧ d ≠ [] ∧ '.' ∈ d) ∧
    (∀ (std : Except JsError ServiceParameters)
        (f : String → Except String ProviderResponse) (addr : String),
      addr.isEmpty = false → strIncludes addr "@" = true →
      (requestPayServiceParams std f addr true = .error .invalidAddress ↔
        (((jsSplit addr '@').getD 0 "").isEmpty ||
         ((jsSplit addr '@').getD 1 "").isEmpty) = true)) := by
  refine ⟨by decide, ?_, ?_⟩
  · intro s
    constructor
    · intro h
      simp only [isValidLightningAddress] at h
      rcases hsp0 : splitOnCharList '@' s.data with _ | ⟨u, _ | ⟨d, _ | ⟨x, rest⟩⟩⟩
      · exact absurd hsp0 (splitOnCharList_ne_nil '@' s.data)
      · rw [show jsSplit s '@' = [String.mk u] by
            rw [jsSplit, hsp0, List.map_cons, List.map_nil]] at h
        exact absurd h (by simp)
      · rw [show jsSplit s '@' = [String.mk u, String.mk d] by
            rw [jsSplit, hsp0, List.map_cons, List.map_cons, List.map_nil]] at h
        simp only [Bool.and_eq_true, Bool.not_eq_true'] at h
        obtain ⟨⟨hu1, hd1⟩, hdot1⟩ := h
        obtain ⟨hcat, hnu, hnd⟩ := splitOnCharList_of_eq_pair '@' s.data u d hsp0
        refine ⟨u, d, hcat, hnu, hnd, ?_, ?_, ?_⟩
        · intro he
          subst he
          exact absurd hu1 (by decide)
        · intro he
          subst he
          exact absurd hd1 (by decide)
        · exact (charsHaveSub_singleton d '.').mp hdot1
      · rw [show jsSplit s '@' = String.mk u :: String.mk d :: String.mk x ::
              rest.map (fun l => String.mk l) by
            rw [jsSplit, hsp0, List.map_cons, List.map_cons, List.map_cons]] at h
        exact absurd h (by simp)
    · rintro ⟨u, d, hsd, hu, hd, hune, hdne, hdot⟩
      have hsp0 : splitOnCharList '@' s.data = [u, d] := by
        rw [hsd]
        exact splitOnCharList_pair_build '@' u d hu hd
      simp only [isValidLightningAddress]
      rw [show jsSplit s '@' = [String.mk u, String.mk d] by
          rw [jsSplit, hsp0, List.map_cons, List.map_cons, List.map_nil]]
      simp only [Bool.and_eq_true, Bool.not_eq_true']
      refine ⟨⟨?_, ?_⟩, (charsHaveSub_singleton d '.').mpr hdot⟩
      · rw [Bool.eq_false_iff]
        intro htrue
        have : String.mk u = "" := (String.isEmpty_iff _).mp htrue
        exact hune (congrArg String.data this)
      · rw [Bool.eq_false_iff]
        intro htrue
        have : String.mk d = "" := (String.isEmpty_iff _).mp htrue
        exact hdne (congrArg String.data this)
  · intro std f addr h1 h2
    rw [requestPayServiceParams_pos std f addr h1 h2,
      wrapParamsErrors_error_invalidAddress_iff, posResolveBody_invalidAddress_iff]

/-- C4 counterexample: a dot-free domain and a double-`"@"` input are both
rejected by `isValidLightningAddress` but accepted by the POS resolution
path, which returns service parameters instead of a validation error. -/
theorem C4_counterexample :
    isValidLightningAddress (.str "user@localhost") = false ∧
    isValidLightningAddress (.str "a@b@c.com") = false ∧
    (requestPayServiceParams fixStdParams fixHttpOk "user@localhost" true).toOption.isSome
      = true ∧
    (requestPayServiceParams fixStdParams fixHttpOk "a@b@c.com" true).toOption.isSome
      = true := by
  exact ⟨by decide, by decide, by with_unfolding_all rfl, by with_unfolding_all rfl⟩

theorem C4_address_validation_witness :
    requestPayServiceParams fixStdParams fixHttpOk "user@" true = .error .invalidAddress ∧
    isValidLightningAddress (.str "user@sub.domain.com") = true := by
  have h := C4_address_validation
  exact ⟨(h.2.2 fixStdParams fixHttpOk "user@" rfl (by decide)).mpr (by decide), h.1.1⟩

/-- C2 counterexample: for a POS parameter record with inverted bounds
(`min = 10 > 5 = max`, as produced from a provider response with inverted
bounds) and amount `7 > max`, the operation fails with `Amount too small`
carrying `min`, not with `Amount too large` carrying `max` — the
minimum check runs first and does not presuppose `min ≤ max`. -/
theorem C2_counterexample :
    requestInvoiceWithServiceParams fixStdWithParams fixHttpOk (some fixInvertedParams) 7 none
      = .error (.amountTooSmall (some 10)) ∧
    jsGtOpt 7 fixInvertedParams.max = true ∧
    JsError.amountTooSmall (some 10) ≠ JsError.amountTooLarge (some 5) := by
  refine ⟨by with_unfolding_all rfl, by with_unfolding_all rfl, ?_⟩
  intro h
  exact JsError.noConfusion h

/-- C2 amended: on the POS path of `requestInvoiceWithServiceParams`, for a
positive integer amount: an in-range amount (`min ≤ amount ≤ max`) never
produces an amount-too-small or amount-too-large error; `amount < min`
fails with `Amount too small` carrying exactly `min`; and — provided
`min ≤ max` — `amount > max` fails with `Amount too large` carrying exactly
`max` (for inverted bounds the minimum check fires first). -/
theorem C2_amount_gate (std : Except JsError InvoiceWithParamsResult)
    (f : String → Except String ProviderResponse) (p : ServiceParameters)
    (tokens m M : ℚ) (comment : Option String)
    (hpos : isPosParams p = true) (hval : isValidAmount tokens = true)
    (hm : p.min = some m) (hM : p.max = some M) :
    ((m ≤ tokens ∧ tokens ≤ M) →
      ∀ e, requestInvoiceWithServiceParams std f (some p) tokens comment = .error e →
        (∀ q, e ≠ .amountTooSmall q) ∧ (∀ q, e ≠ .amountTooLarge q)) ∧
    (tokens < m →
      requestInvoiceWithServiceParams std f (some p) tokens comment =
        .error (.amountTooSmall (some m))) ∧
    (m ≤ M → M < tokens →
      requestInvoiceWithServiceParams std f (some p) tokens comment =
        .error (.amountTooLarge (some M))) := by
  refine ⟨?_, ?_, ?_⟩
  · rintro ⟨h1, h2⟩ e heq
    simp only [requestInvoiceWithServiceParams, hval, hpos, hm, hM, jsLtOpt, jsGtOpt,
      Bool.not_true, Bool.false_eq_true, if_false, if_true, decide_eq_true_eq,
      not_lt.mpr h1, not_lt.mpr h2] at heq
    by_cases hcom : isValidComment comment p.commentAllowed = true
    · rw [if_neg (by simp [hcom])] at heq
      cases hf : f (buildInvoiceUrl p.callback tokens comment) with
      | error msg =>
        rw [hf] at heq
        injection heq with h3
        subst h3
        exact ⟨fun q hq => JsError.noConfusion hq, fun q hq => JsError.noConfusion hq⟩
      | ok resp =>
        rw [hf] at heq
        exact Except.noConfusion heq
    · rw [if_pos (by simp [hcom])] at heq
      injection heq with h3
      subst h3
      exact ⟨fun q hq => JsError.noConfusion hq, fun q hq => JsError.noConfusion hq⟩
  · intro hlt
    simp only [requestInvoiceWithServiceParams, hval, hpos, hm, jsLtOpt,
      Bool.not_true, Bool.false_eq_true, if_false, if_true]
    rw [if_pos (by simp [hlt])]
  · intro hmM hgt
    have hge : ¬ (tokens < m) := not_lt.mpr (le_trans hmM (le_of_lt hgt))
    simp only [requestInvoiceWithServiceParams, hval, hpos, hm, hM, jsLtOpt, jsGtOpt,
      Bool.not_true, Bool.false_eq_true, if_false, if_true]
    rw [if_neg (by simp [hge]), if_pos (by simp [hgt])]

theorem C2_amount_gate_witness :
    requestInvoiceWithServiceParams fixStdWithParams fixHttpOk (some fixResolved) 10 none
      = .error (.amountTooSmall (some 20)) := by
  have h := C2_amount_gate fixStdWithParams fixHttpOk fixResolved 10 20 100000 none
    (by with_unfolding_all rfl) (by with_unfolding_all rfl)
    (by with_unfolding_all rfl) (by with_unfolding_all rfl)
  exact h.2.1 (by norm_num)

/-- C5: on the POS path of `requestInvoiceWithServiceParams`, the
second-step response status is never inspected: for every provider
response — in particular one with a non-`"OK"` status and no `pr` — the
operation returns a result whose `invoice` is the response's `pr` field
(possibly absent) instead of a service error; whereas the one-call
`requestInvoice` POS path rejects a non-`"OK"` second-step status with an
`Invoice request failed` error (surfacing wrapped in the
`POS invoice request failed` prefix). -/
theorem C5_second_step_status_not_checked
    (std2 : Except JsError InvoiceWithParamsResult) (stdI : Except JsError InvoiceResult)
    (stdP : Except JsError ServiceParameters) (f : String → Except String ProviderResponse)
    (addr : String) (p : ServiceParameters) (tokens : ℚ) (comment : Option String)
    (resp : ProviderResponse)
    (hpos : isPosParams p = true) (hval : isValidAmount tokens = true)
    (hsmall : jsLtOpt tokens p.min = false) (hbig : jsGtOpt tokens p.max = false)
    (hcom : isValidComment comment p.commentAllowed = true)
    (hhttp : f (buildInvoiceUrl p.callback tokens comment) = .ok resp) :
    requestInvoiceWithServiceParams std2 f (some p) tokens comment =
      .ok { invoice := resp.pr, successAction := jsOrNull resp.successAction, rawData := resp } ∧
    (addr.isEmpty = false → strIncludes addr "@" = true →
      requestPayServiceParams stdP f addr true = .ok p →
      (resp.status != "OK") = true →
      strIncludes (JsError.invoiceFailed resp.reason).message "Amount too small" = false →
      strIncludes (JsError.invoiceFailed resp.reason).message "Amount too large" = false →
      strIncludes (JsError.invoiceFailed resp.reason).message "Comment too long" = false →
      requestInvoice stdI stdP f addr tokens comment true =
        .error (.wrapError "POS invoice request failed" (.invoiceFailed resp.reason))) := by
  constructor
  · simp only [requestInvoiceWithServiceParams, hval, hpos, hsmall, hbig, hcom,
      Bool.not_true, Bool.false_eq_true, if_false, if_true, hhttp]
  · intro hne hat hres hstatus hb1 hb2 hb3
    simp only [requestInvoice, hne, hval, hat, Bool.not_true, Bool.or_self,
      Bool.false_eq_true, if_false]
    have hbody : requestInvoicePosBody stdP f addr tokens comment =
        .error (.invoiceFailed resp.reason) := by
      simp only [requestInvoicePosBody, hres, hsmall, hbig, hcom,
        Bool.not_true, Bool.false_eq_true, if_false, hhttp, hstatus, if_true]
    rw [hbody]
    simp only [wrapInvoiceErrors, hb1, hb2, hb3, Bool.or_self, Bool.false_eq_true, if_false]

theorem C5_second_step_status_not_checked_witness :
    requestInvoiceWithServiceParams fixStdWithParams fixHttpBadSecond (some fixResolved) 50 none
      = .ok { invoice := none, successAction := .null, rawData := fixResponseBad } ∧
    requestInvoice fixStdInvoice fixStdParams fixHttpBadSecond "user@domain.com" 50 none true
      = .error (.wrapError "POS invoice request failed" (.invoiceFailed (some "nope"))) := by
  have h := C5_second_step_status_not_checked fixStdWithParams fixStdInvoice fixStdParams
    fixHttpBadSecond "user@domain.com" fixResolved 50 none fixResponseBad
    (by with_unfolding_all rfl) (by with_unfolding_all rfl) (by with_unfolding_all rfl)
    (by with_unfolding_all rfl) (by with_unfolding_all rfl) (by with_unfolding_all rfl)
  exact ⟨h.1, h.2 rfl (by decide) (by with_unfolding_all rfl) (by decide)
    (by decide) (by decide) (by decide)⟩

/-- C9 counterexample: a transport failure during parameter resolution
inside the one-call POS flow surfaces wrapped twice (once by the resolver,
once by `requestInvoice`), and an address-format validation error — a
validation kind — is wrapped by `requestInvoice` rather than propagating
verbatim; both contradict the claimed policy. -/
theorem C9_counterexample :
    requestInvoice fixStdInvoice fixStdParams (fun _ => .error "network down")
      "user@domain.com" 50 none true =
      .error (.wrapError "POS invoice request failed"
        (.wrapError "Failed to get POS service params" (.httpError "network down"))) ∧
    requestInvoice fixStdInvoice fixStdParams fixHttpOk "user@" 50 none true =
      .error (.wrapError "POS invoice request failed" .invalidAddress) := by
  exact ⟨by with_unfolding_all rfl, by with_unfolding_all rfl⟩

/-- C9 amended: every POS-path failure is a single error value;
`requestPayServiceParams` wraps any failure of its POS body once with the
`Failed to get POS service params` prefix unless the failure's message
contains `"Invalid Lightning address"` (then passed verbatim);
`requestInvoice` wraps any failure of its POS body — including
address-format validation failures and already-wrapped resolver failures,
which therefore surface wrapped twice — with the
`POS invoice request failed` prefix unless the message contains
`"Amount too small"`, `"Amount too large"` or `"Comment too long"`; and
`requestInvoiceWithServiceParams` applies no wrapping at all, its transport
failures propagating bare. -/
theorem C9_wrapping_policy :
    (∀ (e : JsError) (f : String → Except String ProviderResponse) (addr : String)
        (std : Except JsError ServiceParameters),
      addr.isEmpty = false → strIncludes addr "@" = true →
      posResolveBody f addr = .error e →
      requestPayServiceParams std f addr true =
        .error (if strIncludes e.message "Invalid Lightning address" = true then e
                else .wrapError "Failed to get POS service params" e)) ∧
    (∀ (e : JsError) (stdP : Except JsError ServiceParameters)
        (f : String → Except String ProviderResponse) (addr : String) (tokens : ℚ)
        (comment : Option String) (stdI : Except JsError InvoiceResult),
      addr.isEmpty = false → isValidAmount tokens = true → strIncludes addr "@" = true →
      requestInvoicePosBody stdP f addr tokens comment = .error e →
      requestInvoice stdI stdP f addr tokens comment true =
        .error (if (strIncludes e.message "Amount too small" ||
                    strIncludes e.message "Amount too large" ||
                    strIncludes e.message "Comment too long") = true then e
                else .wrapError "POS invoice request failed" e)) ∧
    (∀ (std : Except JsError InvoiceWithParamsResult)
        (f : String → Except String ProviderResponse) (p : ServiceParameters)
        (tokens : ℚ) (comment : Option String) (msg : String),
      isPosParams p = true → isValidAmount tokens = true →
      jsLtOpt tokens p.min = false → jsGtOpt tokens p.max = false →
      isValidComment comment p.commentAllowed = true →
      f (buildInvoiceUrl p.callback tokens comment) = .error msg →
      requestInvoiceWithServiceParams std f (some p) tokens comment =
        .error (.httpError msg)) := by
  refine ⟨?_, ?_, ?_⟩
  · intro e f addr std hne hat hbody
    rw [requestPayServiceParams_pos std f addr hne hat, hbody]
    by_cases hb : strIncludes e.message "Invalid Lightning address" = true
    · simp only [wrapParamsErrors, hb, if_true]
    · simp only [wrapParamsErrors, hb, Bool.false_eq_true, if_false]
  · intro e stdP f addr tokens comment stdI hne hval hat hbody
    simp only [requestInvoice, hne, hval, hat, Bool.not_true, Bool.or_self,
      Bool.false_eq_true, if_false]
    rw [hbody]
    by_cases hb : (strIncludes e.message "Amount too small" ||
        strIncludes e.message "Amount too large" ||
        strIncludes e.message "Comment too long") = true
    · simp only [wrapInvoiceErrors, hb, if_true]
    · simp only [wrapInvoiceErrors]
      rw [if_neg hb, if_neg hb]
  · intro std f p tokens comment msg hpos hval hsmall hbig hcom hf
    simp only [requestInvoiceWithServiceParams, hval, hpos, hsmall, hbig, hcom,
      Bool.not_true, Bool.false_eq_true, if_false, if_true, hf]

theorem C9_wrapping_policy_witness :
    requestPayServiceParams fixStdParams (fun _ => .error "boom") "user@domain.com" true =
      .error (.wrapError "Failed to get POS service params" (.httpError "boom")) := by
  have h := C9_wrapping_policy.1 (.httpError "boom") (fun _ => .error "boom")
    "user@domain.com" fixStdParams rfl (by decide) (by with_unfolding_all rfl)
  rw [h, if_neg (by decide)]

end BringinLnurlPay
